import Mathlib

/-!
Shallow embedding of the feed-to-pubsub synchronization core of
`atomtopubsub` (files `src/atomtopubsub/scheduler.py`,
`src/atomtopubsub/feedparser.py`, `src/atomtopubsub/xmpp.py`,
`src/atomtopubsub/config.py`).

Timestamps (`datetime`) are modelled as integers: the only operations the
code performs on them are strict comparison (`entry.updated > last_updated`)
and an exact isoformat round-trip through the cache
(`datetime.fromisoformat(t.isoformat()) = t`), both of which are faithfully
captured by `Int` with its order.

The cache (`CacheManager._cache`, a Python `dict[str, Any]` storing
isoformat strings) is modelled as an association list from `String` keys to
integer timestamp values with overwrite-on-insert semantics, matching
Python dict assignment; `get_last_updated` round-trips the stored value
exactly.  The remote XMPP calls (`create_node`, `publish_entry`) are
modelled by their observable outcomes: a `CreateNodeResult` and a
per-entry success oracle `pub : FeedEntry → Bool`.
-/

namespace AtomToPubsub

/-- Canonical feed entry, from `feedparser.py` `@dataclass FeedEntry`
(fields relevant to the synchronization engine; `links`, `tags`, `authors`
play no role in any cache/publish decision). -/
structure FeedEntry where
  id : String
  title : String
  updated : Int
  content : Option String
  description : Option String
deriving DecidableEq, Repr

/-- Canonical feed metadata, from `feedparser.py` `@dataclass FeedInfo`. -/
structure FeedInfo where
  title : String
  description : Option String
  logo : Option String
  updated : Option Int
deriving DecidableEq, Repr

/-- The publication cache: association list with dict semantics
(`CacheManager._cache : dict[str, Any]`). -/
def Cache := List (String × Int)
deriving DecidableEq, Repr

/-- Python `d.get(k)` / `k in d` lookup. -/
def cacheGet (c : Cache) (k : String) : Option Int :=
  (List.find? (fun p => p.1 = k) c).map (·.2)

/-- Python `d[k] = v`: overwrite-or-add. -/
def cacheSet (c : Cache) (k : String) (v : Int) : Cache :=
  (k, v) :: List.filter (fun p => ¬ (p.1 = k)) c

/-- `CacheManager.get_last_updated`: the feed-key record, parsed back from
its isoformat string (an exact round-trip). -/
def get_last_updated (c : Cache) (feedKey : String) : Option Int :=
  cacheGet c feedKey

/-- `CacheManager.set_last_updated`: store the timestamp under the bare
feed key and persist. -/
def set_last_updated (c : Cache) (feedKey : String) (t : Int) : Cache :=
  cacheSet c feedKey t

/-- The composite cache key `f"{feed_key}:{entry.id}"` used by
`is_entry_published` / `mark_entry_published`. -/
def entryCacheKey (feedKey : String) (e : FeedEntry) : String :=
  feedKey ++ ":" ++ e.id

/-- `CacheManager.is_entry_published`: membership of the composite key. -/
def is_entry_published (c : Cache) (feedKey : String) (e : FeedEntry) : Bool :=
  (cacheGet c (entryCacheKey feedKey e)).isSome

/-- `CacheManager.mark_entry_published`: record `utcnow()` under the
composite key and persist. -/
def mark_entry_published (c : Cache) (feedKey : String) (e : FeedEntry)
    (now : Int) : Cache :=
  cacheSet c (entryCacheKey feedKey e) now

/-- `CacheManager.clear`. -/
def cacheClear : Cache := []

/-- Observable outcome of `Publishx.create_node` as seen by
`FeedScheduler._process_feed`: `ok`/`failed` are the classified outcomes
(the coroutine returns `True`/`False`, catching `IqError`/`IqTimeout`);
`raised` is an unclassified exception escaping `create_node`, which then
escapes `_process_feed` and is caught in `_poll_feeds`. -/
inductive CreateNodeResult
  | ok
  | failed
  | raised
deriving DecidableEq, Repr

/-- The `should_publish` condition of `FeedScheduler._process_feed`
(scheduler.py lines 178-182), with Python short-circuit semantics:

    last_updated is None
    or entry.updated > last_updated
    or not self.cache.is_entry_published(feed_key, entry)
-/
def shouldPublish (c : Cache) (lastUpdated : Option Int) (feedKey : String)
    (e : FeedEntry) : Bool :=
  match lastUpdated with
  | none => true
  | some t => e.updated > t || !(is_entry_published c feedKey e)

/-- The entry loop of `_process_feed` (lines 176-192): for each entry,
if `should_publish`, call `publish_entry` (we record the call), and on
success mark it published immediately.  `last_updated` is read once before
the loop and never re-read; `is_entry_published` consults the live cache.
Returns the final cache and the ordered list of publish calls made. -/
def processEntries (pub : FeedEntry → Bool) (now : Int) (feedKey : String)
    (lastUpdated : Option Int) : Cache → List FeedEntry → Cache × List FeedEntry
  | c, [] => (c, [])
  | c, e :: rest =>
    if shouldPublish c lastUpdated feedKey e then
      let c' := if pub e then mark_entry_published c feedKey e now else c
      let r := processEntries pub now feedKey lastUpdated c' rest
      (r.1, e :: r.2)
    else
      processEntries pub now feedKey lastUpdated c rest

/-- `FeedScheduler._process_feed` (scheduler.py lines 157-196), one feed
cycle:
* if the XMPP client is not connected, return (no action);
* if the parse failed (`parse` returned `None`), return (no action);
* `await create_node(...)` — its `True`/`False` result is IGNORED
  (line 171 discards the return value); only an exception escaping it
  aborts the cycle (propagating out of `_process_feed`, leaving the cache
  untouched and making no publish call);
* read `last_updated`, run the entry loop over `reversed(entries)`;
* finally, if the feed declared an `updated`, store it as the new
  `last_updated`.
Returns the resulting cache and the ordered publish calls. -/
def processFeed (connected : Bool) (pub : FeedEntry → Bool) (now : Int)
    (feedKey : String) (parseResult : Option (FeedInfo × List FeedEntry))
    (cr : CreateNodeResult) (c : Cache) : Cache × List FeedEntry :=
  if !connected then (c, [])
  else
    match parseResult with
    | none => (c, [])
    | some (info, entries) =>
      match cr with
      | .raised => (c, [])
      | _ =>
        let lastUpdated := get_last_updated c feedKey
        let r := processEntries pub now feedKey lastUpdated c entries.reverse
        match info.updated with
        | some t => (set_last_updated r.1 feedKey t, r.2)
        | none => r

/-! ## Fetch loop (`FeedParser.parse`, feedparser.py lines 109-148)

The network fetch itself is a black box; what the code controls is the
retry loop: `for attempt in range(1, self._max_retries + 1)` around
`_fetch_with_timeout`, with

* `except (socket.timeout, urllib.error.URLError, urllib.error.HTTPError)`
  → count the error and retry (continue),
* `except Exception` → record the error and `return None` immediately,
* for-else (all attempts raised a retried class) → `return None`.

An attempt's outcome is modelled by the class of exception it raises. -/

/-- Exception class raised by one fetch attempt, as classified by the two
`except` clauses of `FeedParser.parse`. -/
inductive FetchExcClass
  | socketTimeout
  | urlError
  | httpError
  | otherExc
deriving DecidableEq, Repr

/-- Outcome of a single `_fetch_with_timeout` call. -/
inductive AttemptOutcome
  | ok
  | raise (e : FetchExcClass)
deriving DecidableEq, Repr

/-- Whether an exception class is in the retried tuple
`(socket.timeout, urllib.error.URLError, urllib.error.HTTPError)`
of feedparser.py line 115. -/
def isRetriedExc : FetchExcClass → Bool
  | .socketTimeout => true
  | .urlError => true
  | .httpError => true
  | .otherExc => false

/-- Result of the fetch loop, with the number of attempts actually made:
`success` (fetch worked, parsing proceeds), `exhausted` (every attempt
raised a retried class; the for-else returns `None`), `immediate` (an
attempt raised an unclassified exception; `return None` at once). -/
inductive FetchResult
  | success (attemptsMade : Nat)
  | exhausted (attemptsMade : Nat)
  | immediate (attemptsMade : Nat)
deriving DecidableEq, Repr

/-- The retry loop body: `i` is the 1-based attempt number about to run,
the second argument the number of loop iterations remaining. -/
def fetchLoop (att : Nat → AttemptOutcome) : Nat → Nat → FetchResult
  | i, 0 => .exhausted (i - 1)
  | i, n + 1 =>
    match att i with
    | .ok => .success i
    | .raise e =>
      if isRetriedExc e then fetchLoop att (i + 1) n else .immediate i

/-- `FeedParser.parse`'s fetch phase with `max_retries` iterations
(`range(1, self._max_retries + 1)`; the default `MAX_RETRIES` is 2). -/
def fetchResult (att : Nat → AttemptOutcome) (maxRetries : Nat) : FetchResult :=
  fetchLoop att 1 maxRetries

/-! ## Entry normalization (`FeedParser._parse_entry`, feedparser.py 181-257) -/

/-- The loosely-typed record handed to `_parse_entry` by the feedparser
library: `none` models an absent attribute (`hasattr` false / `getattr`
default).  `contentList` models `entry.content`, a list of typed values of
which the code reads `[0].value`; the library never produces the attribute
as an empty list except for Atom 0.3 where `_parse_atom_content` guards
emptiness itself. -/
structure RawEntry where
  idAttr : Option String
  linkAttr : Option String
  titleAttr : Option String
  updatedParsed : Option Int
  version : Option String
  contentEncoded : Option String
  contentList : Option (List String)
  summary : Option String
  description : Option String
deriving DecidableEq, Repr

/-- Python `a or b` on strings (empty string is falsy). -/
def pyOr (a b : String) : String :=
  if a = "" then b else a

/-- Python `hasattr(entry, f) and entry.f` for a string attribute. -/
def pyTruthy : Option String → Bool
  | some s => s ≠ ""
  | none => false

/-- Python `hasattr(entry, "content") and entry.content` for the content
list attribute (a present empty list is falsy). -/
def truthyList : Option (List String) → Bool
  | some (_ :: _) => true
  | _ => false

/-- Python `not content` on the running `content` variable
(`None` and `""` are both falsy). -/
def contentFalsy : Option String → Bool
  | none => true
  | some s => s = ""

/-- The dialect test `version == "rss20" or "rss10" in str(version)`
(feedparser.py line 191); substring membership via `splitOn`. -/
def isRss (v : String) : Bool :=
  v == "rss20" || (v.splitOn "rss10").length ≠ 1

/-- `_parse_atom_content` (feedparser.py 267-281): empty content list gives
`""`; otherwise the first value through the Atom sanitizer (BeautifulSoup
round-trip, comment stripping, `<div>` wrapping — abstracted as
`sanitizeAtom`). -/
def parseAtomContent (sanitizeAtom : String → String) : List String → String
  | [] => ""
  | x :: _ => sanitizeAtom x

/-- The version-dispatched content/description selection of
`_parse_entry` (feedparser.py 186-219), before the universal fallback.
`sanitizeHtml` abstracts `_parse_html_content` (BeautifulSoup
`prettify`, falling back to the raw string). -/
def selectContent (sanitizeHtml sanitizeAtom : String → String)
    (r : RawEntry) : Option String × Option String :=
  let version := r.version.getD ""
  if isRss version then
    if pyTruthy r.contentEncoded then
      (some (sanitizeHtml (r.contentEncoded.getD "")), none)
    else if truthyList r.contentList then
      (some (sanitizeHtml ((r.contentList.getD []).headD "")), none)
    else if pyTruthy r.summary then
      (some (sanitizeHtml (r.summary.getD "")), none)
    else if pyTruthy r.description then
      (none, some (r.description.getD ""))
    else (none, none)
  else if version == "atom03" then
    if r.contentList.isSome then
      (some (parseAtomContent sanitizeAtom (r.contentList.getD [])), none)
    else (none, none)
  else if version == "atom10" then
    if r.contentList.isSome then
      (some (sanitizeHtml ((r.contentList.getD []).headD "")), none)
    else if pyTruthy r.summary then
      (some (sanitizeHtml (r.summary.getD "")), none)
    else if r.description.isSome then
      (none, some (r.description.getD ""))
    else (none, none)
  else (none, none)

/-- `FeedParser._parse_entry` (feedparser.py 181-257) restricted to the
fields of the canonical entry that the synchronization engine reads:

* `entry_id = getattr(entry, "id", "") or getattr(entry, "link", "")`
* `title = getattr(entry, "title", "") or "Untitled"`
* `updated = _struct_time_to_datetime(...) or datetime.utcnow()`
  (`now` models `utcnow()`)
* the dialect-dispatched content selection, then the universal fallback
  `if not content and hasattr(entry, "summary") and entry.summary:
      content = self._parse_html_content(entry.summary)` (line 218). -/
def parseEntry (sanitizeHtml sanitizeAtom : String → String) (now : Int)
    (r : RawEntry) : FeedEntry :=
  let sel := selectContent sanitizeHtml sanitizeAtom r
  let content :=
    if contentFalsy sel.1 && pyTruthy r.summary then
      some (sanitizeHtml (r.summary.getD ""))
    else sel.1
  { id := pyOr (r.idAttr.getD "") (r.linkAttr.getD "")
    title := pyOr (r.titleAttr.getD "") "Untitled"
    updated := r.updatedParsed.getD now
    content := content
    description := sel.2 }

/-! ## Pubsub item-id sanitization (`Publishx.publish_entry`, xmpp.py 110-111)

    rex = re.compile(r"[:,\/]")
    item["id"] = rex.sub("-", str(entry.id))
-/

/-- Replacement applied to each character by `rex.sub("-", ...)` for the
single-character class `[:,\/]`. -/
def sanitizeChar (ch : Char) : Char :=
  if ch = ':' ∨ ch = ',' ∨ ch = '/' then '-' else ch

/-- The Pubsub item id derived from an entry id. -/
def sanitizeItemId (s : String) : String :=
  ⟨s.data.map sanitizeChar⟩

/-! ## Scheduler pacing (`FeedScheduler._poll_feeds`, scheduler.py 138-155)

    refresh_interval = self.config.refresh_time / len(feed_items) if feed_items else 1
    ...
    await asyncio.sleep(refresh_interval * 60)

`config.refresh_time` is an integer number of minutes, validated `ge=1`
(config.py line 34).  Python 3 `/` is true division; we model it over ℚ. -/

/-- Per-feed spacing in minutes as computed by `_poll_feeds`. -/
def refreshIntervalMinutes (refreshTime : Nat) (feedCount : Nat) : ℚ :=
  if feedCount = 0 then 1 else (refreshTime : ℚ) / (feedCount : ℚ)

/-- The argument passed to `asyncio.sleep`, in seconds. -/
def sleepSeconds (refreshTime : Nat) (feedCount : Nat) : ℚ :=
  refreshIntervalMinutes refreshTime feedCount * 60

/-- Pydantic validation of `refresh_time` (`Field(default=60, ge=1)`). -/
def validRefreshTime (refreshTime : Nat) : Prop :=
  1 ≤ refreshTime

/-! ## Cache lemmas -/

theorem find?_filter_key_ne (k k' : String) (h : k' ≠ k)
    (c : List (String × Int)) :
    List.find? (fun p => p.1 = k') (List.filter (fun p => ¬ (p.1 = k)) c)
      = List.find? (fun p => p.1 = k') c := by
  induction c with
  | nil => rfl
  | cons p c ih =>
    rw [List.filter_cons]
    by_cases hp : p.1 = k
    · rw [if_neg (by simp [hp]), ih,
        List.find?_cons_of_neg _ (by simp [hp]; exact fun hh => h hh.symm)]
    · rw [if_pos (by simp [hp])]
      by_cases hq : p.1 = k'
      · rw [List.find?_cons_of_pos _ (by simp [hq]),
          List.find?_cons_of_pos _ (by simp [hq])]
      · rw [List.find?_cons_of_neg _ (by simp [hq]),
          List.find?_cons_of_neg _ (by simp [hq]), ih]

theorem cacheGet_cacheSet_self (c : Cache) (k : String) (v : Int) :
    cacheGet (cacheSet c k v) k = some v := by
  unfold cacheGet cacheSet
  rw [List.find?_cons_of_pos _ (by simp)]
  rfl

theorem cacheGet_cacheSet_ne (c : Cache) (k : String) (v : Int)
    (k' : String) (h : k' ≠ k) :
    cacheGet (cacheSet c k v) k' = cacheGet c k' := by
  unfold cacheGet cacheSet
  rw [List.find?_cons_of_neg _ (by simp; exact fun hh => h hh.symm)]
  rw [find?_filter_key_ne k k' h c]

theorem entryCacheKey_ne_feedKey (k : String) (e : FeedEntry) :
    entryCacheKey k e ≠ k := by
  intro h
  have hl := congrArg String.length h
  have h1 : (":" : String).length = 1 := rfl
  rw [entryCacheKey, String.length_append, String.length_append, h1] at hl
  omega

theorem entryCacheKey_eq_iff (k : String) (e e' : FeedEntry) :
    entryCacheKey k e = entryCacheKey k e' ↔ e.id = e'.id := by
  constructor
  · intro h
    have h2 := congrArg String.data h
    simp only [entryCacheKey, String.data_append, List.append_assoc] at h2
    have h3 := List.append_cancel_left h2
    have h4 := List.append_cancel_left h3
    exact String.ext h4
  · intro h
    rw [entryCacheKey, entryCacheKey, h]

theorem is_entry_published_mark_of_ne (c : Cache) (k : String) (now : Int)
    (e e' : FeedEntry) (h : e'.id ≠ e.id) :
    is_entry_published (mark_entry_published c k e now) k e'
      = is_entry_published c k e' := by
  unfold is_entry_published mark_entry_published
  rw [cacheGet_cacheSet_ne]
  intro hk
  exact h ((entryCacheKey_eq_iff k e' e).1 hk)

theorem is_entry_published_mark_mono (c : Cache) (k : String) (now : Int)
    (e e' : FeedEntry) (h : is_entry_published c k e = true) :
    is_entry_published (mark_entry_published c k e' now) k e = true := by
  by_cases hid : e.id = e'.id
  · have hkey : entryCacheKey k e = entryCacheKey k e' :=
      (entryCacheKey_eq_iff k e e').2 hid
    unfold is_entry_published mark_entry_published
    rw [hkey, cacheGet_cacheSet_self]
    rfl
  · rw [is_entry_published_mark_of_ne c k now e' e hid]
    exact h

theorem is_entry_published_set_last (c : Cache) (k : String) (t : Int)
    (e : FeedEntry) :
    is_entry_published (set_last_updated c k t) k e
      = is_entry_published c k e := by
  unfold is_entry_published set_last_updated
  rw [cacheGet_cacheSet_ne _ _ _ _ (entryCacheKey_ne_feedKey k e)]

theorem get_last_updated_set_self (c : Cache) (k : String) (t : Int) :
    get_last_updated (set_last_updated c k t) k = some t :=
  cacheGet_cacheSet_self c k t

theorem get_last_updated_mark (c : Cache) (k : String) (e : FeedEntry)
    (now : Int) :
    get_last_updated (mark_entry_published c k e now) k
      = get_last_updated c k := by
  unfold get_last_updated mark_entry_published
  exact cacheGet_cacheSet_ne _ _ _ _
    (fun h => entryCacheKey_ne_feedKey k e h.symm)

/-! ## Publish-decision lemmas -/

theorem shouldPublish_congr (c c0 : Cache) (last : Option Int)
    (k : String) (e : FeedEntry)
    (h : is_entry_published c k e = is_entry_published c0 k e) :
    shouldPublish c last k e = shouldPublish c0 last k e := by
  cases last <;> simp [shouldPublish, h]

theorem shouldPublish_of_not_published (c : Cache) (last : Option Int)
    (k : String) (e : FeedEntry)
    (h : is_entry_published c k e = false) :
    shouldPublish c last k e = true := by
  cases last <;> simp [shouldPublish, h]

theorem shouldPublish_false_of_published_le (c : Cache) (k : String)
    (e : FeedEntry) (T : Int) (hpub : is_entry_published c k e = true)
    (hle : e.updated ≤ T) :
    shouldPublish c (some T) k e = false := by
  simp [shouldPublish, hpub]
  omega

/-! ## Entry-loop lemmas -/

theorem processEntries_nil (pub : FeedEntry → Bool) (now : Int)
    (k : String) (last : Option Int) (c : Cache) :
    processEntries pub now k last c [] = (c, []) := rfl

theorem processEntries_cons (pub : FeedEntry → Bool) (now : Int)
    (k : String) (last : Option Int) (c : Cache) (e : FeedEntry)
    (rest : List FeedEntry) :
    processEntries pub now k last c (e :: rest)
      = if shouldPublish c last k e then
          ((processEntries pub now k last
              (if pub e then mark_entry_published c k e now else c) rest).1,
            e :: (processEntries pub now k last
              (if pub e then mark_entry_published c k e now else c) rest).2)
        else processEntries pub now k last c rest := rfl

/-- With no stored last-updated timestamp every entry is publish-eligible,
so the loop calls publish on the whole list in order. -/
theorem processEntries_none_calls (pub : FeedEntry → Bool) (now : Int)
    (k : String) :
    ∀ (l : List FeedEntry) (c : Cache),
      (processEntries pub now k none c l).2 = l := by
  intro l
  induction l with
  | nil => intro c; rfl
  | cons e rest ih =>
    intro c
    rw [processEntries_cons,
      if_pos (show shouldPublish c none k e = true from rfl)]
    simp [ih]

/-- With pairwise distinct entry ids, the mid-loop cache marks cannot
influence later decisions: the publish calls are exactly the filter of the
list by the decision taken against the loop-entry cache. -/
theorem processEntries_calls_filter (pub : FeedEntry → Bool) (now : Int)
    (k : String) (last : Option Int) :
    ∀ (l : List FeedEntry) (c c0 : Cache),
      (∀ e ∈ l, is_entry_published c k e = is_entry_published c0 k e) →
      (l.map FeedEntry.id).Nodup →
      (processEntries pub now k last c l).2
        = l.filter (fun e => shouldPublish c0 last k e) := by
  intro l
  induction l with
  | nil => intro c c0 _ _; rfl
  | cons e rest ih =>
    intro c c0 hpub hnd
    have hcong : shouldPublish c last k e = shouldPublish c0 last k e :=
      shouldPublish_congr c c0 last k e (hpub e (by simp))
    rw [List.map_cons, List.nodup_cons] at hnd
    have hrest : ∀ e' ∈ rest,
        is_entry_published (if pub e then mark_entry_published c k e now else c)
            k e' = is_entry_published c0 k e' := by
      intro e' he'
      cases hp : pub e with
      | true =>
        rw [if_pos rfl, is_entry_published_mark_of_ne]
        · exact hpub e' (by simp [he'])
        · intro hid
          exact hnd.1 (hid ▸ List.mem_map_of_mem FeedEntry.id he')
      | false =>
        rw [if_neg Bool.false_ne_true]
        exact hpub e' (by simp [he'])
    rw [processEntries_cons, List.filter_cons]
    by_cases hs : shouldPublish c last k e = true
    · have hs0 : shouldPublish c0 last k e = true := by
        rw [← hcong]; exact hs
      rw [if_pos hs, if_pos hs0]
      show e :: _ = e :: _
      rw [ih _ c0 hrest hnd.2]
    · have hs0 : ¬ shouldPublish c0 last k e = true := by
        rw [← hcong]; exact hs
      rw [if_neg hs, if_neg hs0]
      have hrest' : ∀ e' ∈ rest,
          is_entry_published c k e' = is_entry_published c0 k e' :=
        fun e' he' => hpub e' (by simp [he'])
      rw [ih _ c0 hrest' hnd.2]

/-- An entry already recorded as published, whose timestamp does not
exceed the stored last-updated value, is never the subject of a publish
call anywhere in the loop. -/
theorem processEntries_not_called (pub : FeedEntry → Bool) (now : Int)
    (k : String) (T : Int) (e : FeedEntry) (hle : e.updated ≤ T) :
    ∀ (l : List FeedEntry) (c : Cache),
      is_entry_published c k e = true →
      e ∉ (processEntries pub now k (some T) c l).2 := by
  intro l
  induction l with
  | nil => intro c _; simp [processEntries_nil]
  | cons e' rest ih =>
    intro c hpub
    rw [processEntries_cons]
    by_cases hs : shouldPublish c (some T) k e' = true
    · have hne : e ≠ e' := by
        intro heq
        rw [← heq, shouldPublish_false_of_published_le c k e T hpub hle]
          at hs
        exact Bool.false_ne_true hs
      rw [if_pos hs]
      intro hmem
      rcases List.mem_cons.1 hmem with h1 | h2
      · exact hne h1
      · refine ih _ ?_ h2
        cases hp : pub e' with
        | true =>
          rw [if_pos rfl]
          exact is_entry_published_mark_mono c k now e e' hpub
        | false =>
          rw [if_neg Bool.false_ne_true]
          exact hpub
    · rw [if_neg hs]
      exact ih _ hpub

/-- If every publish attempt sharing an entry's id fails, the loop never
adds that entry's composite key to the cache. -/
theorem processEntries_not_marked (pub : FeedEntry → Bool) (now : Int)
    (k : String) (last : Option Int) (e : FeedEntry)
    (hfail : ∀ e', e'.id = e.id → pub e' = false) :
    ∀ (l : List FeedEntry) (c : Cache),
      is_entry_published c k e = false →
      is_entry_published (processEntries pub now k last c l).1 k e
        = false := by
  intro l
  induction l with
  | nil => intro c h; exact h
  | cons e' rest ih =>
    intro c h
    rw [processEntries_cons]
    by_cases hs : shouldPublish c last k e' = true
    · rw [if_pos hs]
      refine ih _ ?_
      cases hp : pub e' with
      | true =>
        have hne : e.id ≠ e'.id := by
          intro hid
          rw [hfail e' hid.symm] at hp
          exact Bool.false_ne_true hp
        rw [if_pos rfl, is_entry_published_mark_of_ne c k now e' e hne]
        exact h
      | false =>
        rw [if_neg Bool.false_ne_true]
        exact h
    · rw [if_neg hs]
      exact ih _ h

/-- Unfolding of a connected, successfully-parsed, non-aborted cycle into
the entry loop plus the final last-updated write. -/
theorem processFeed_calls (pub : FeedEntry → Bool) (now : Int) (k : String)
    (info : FeedInfo) (entries : List FeedEntry) (cr : CreateNodeResult)
    (c : Cache) (hcr : cr ≠ CreateNodeResult.raised) :
    (processFeed true pub now k (some (info, entries)) cr c).2
      = (processEntries pub now k (get_last_updated c k) c
          entries.reverse).2 := by
  cases cr with
  | raised => exact absurd rfl hcr
  | ok => cases hu : info.updated <;> simp [processFeed, hu]
  | failed => cases hu : info.updated <;> simp [processFeed, hu]

/-- Unfolding of the resulting cache of such a cycle. -/
theorem processFeed_cache (pub : FeedEntry → Bool) (now : Int) (k : String)
    (info : FeedInfo) (entries : List FeedEntry) (cr : CreateNodeResult)
    (c : Cache) (hcr : cr ≠ CreateNodeResult.raised) :
    (processFeed true pub now k (some (info, entries)) cr c).1
      = (match info.updated with
          | some t => set_last_updated
              (processEntries pub now k (get_last_updated c k) c
                entries.reverse).1 k t
          | none => (processEntries pub now k (get_last_updated c k) c
              entries.reverse).1) := by
  cases cr with
  | raised => exact absurd rfl hcr
  | ok => cases hu : info.updated <;> simp [processFeed, hu]
  | failed => cases hu : info.updated <;> simp [processFeed, hu]

/-- C1: within one feed cycle (XMPP connected, feed parsed, node creation
not raising, pairwise-distinct entry ids), a publish call is made for an
entry exactly when the cache had no lastUpdatedAt for the feed key, or the
entry's updatedAt is strictly newer than it, or the entry's id is not in
the published set; in particular an entry strictly older than the stored
lastUpdatedAt but absent from the published set is still published. -/
theorem c1_dedup_disjunction
    (pub : FeedEntry → Bool) (now : Int) (k : String) (info : FeedInfo)
    (entries : List FeedEntry) (cr : CreateNodeResult) (c : Cache)
    (hcr : cr ≠ CreateNodeResult.raised)
    (hnd : (entries.map FeedEntry.id).Nodup) :
    (processFeed true pub now k (some (info, entries)) cr c).2
        = entries.reverse.filter
            (fun e => shouldPublish c (get_last_updated c k) k e)
    ∧ (∀ (e : FeedEntry) (last : Option Int),
        shouldPublish c last k e = true ↔
          (last = none ∨ (∃ t, last = some t ∧ t < e.updated)
            ∨ is_entry_published c k e = false))
    ∧ (∀ (e : FeedEntry) (t : Int), e.updated < t →
        is_entry_published c k e = false →
        shouldPublish c (some t) k e = true) := by
  refine ⟨?_, ?_, ?_⟩
  · rw [processFeed_calls pub now k info entries cr c hcr]
    refine processEntries_calls_filter pub now k _ entries.reverse c c
      (fun _ _ => rfl) ?_
    rw [List.map_reverse]
    exact List.nodup_reverse.2 hnd
  · intro e last
    cases last with
    | none => simp [shouldPublish]
    | some t =>
      simp only [shouldPublish, Bool.or_eq_true, decide_eq_true_eq,
        Bool.not_eq_true', gt_iff_lt]
      constructor
      · intro h
        rcases h with h | h
        · exact Or.inr (Or.inl ⟨t, rfl, h⟩)
        · exact Or.inr (Or.inr h)
      · intro h
        rcases h with h | ⟨t', ht', hlt⟩ | h
        · exact absurd h (by simp)
        · exact Or.inl (by injection ht' with ht'; exact ht' ▸ hlt)
        · exact Or.inr h
  · intro e t _ hpub
    exact shouldPublish_of_not_published c (some t) k e hpub

/-- C1 witness: a concrete cycle with `lastUpdatedAt = 9`, one entry with
`updatedAt = 5 < 9` whose id is absent from the published set: it is
published. -/
theorem c1_dedup_disjunction_witness :
    (processFeed true (fun _ => true) 0 "f"
        (some (⟨"", none, none, none⟩, [⟨"e1", "", 5, none, none⟩]))
        CreateNodeResult.ok [("f", 9)]).2
      = [⟨"e1", "", 5, none, none⟩] := by
  have h := c1_dedup_disjunction (fun _ => true) 0 "f" ⟨"", none, none, none⟩
    [⟨"e1", "", 5, none, none⟩] CreateNodeResult.ok [("f", 9)]
    (by decide) (by decide)
  exact h.1.trans (by decide)

/-- C2 counterexample: a feed document that declares no feed-level
`updatedAt` (`FeedInfo.updated = none`).  The first run publishes the
entry and marks it published, but the second run — cache unchanged in
between, timestamps unchanged — still makes a publish call for it,
because `last_updated` is still `None` and the disjunction then publishes
unconditionally. -/
theorem c2_counterexample :
    is_entry_published
        (processFeed true (fun _ => true) 0 "f"
          (some (⟨"f", none, none, none⟩, [⟨"e1", "t", 5, none, none⟩]))
          CreateNodeResult.ok []).1
        "f" ⟨"e1", "t", 5, none, none⟩ = true
    ∧ (processFeed true (fun _ => true) 1 "f"
          (some (⟨"f", none, none, none⟩, [⟨"e1", "t", 5, none, none⟩]))
          CreateNodeResult.ok
          (processFeed true (fun _ => true) 0 "f"
            (some (⟨"f", none, none, none⟩, [⟨"e1", "t", 5, none, none⟩]))
            CreateNodeResult.ok []).1).2
        = [⟨"e1", "t", 5, none, none⟩] := by
  decide

/-- C2 amended: running the cycle twice on the same feed document with the
cache unchanged in between yields zero publish calls on the second run for
every entry marked published, PROVIDED the feed document declares an
updatedAt and the entry's updatedAt is not strictly newer than it (and the
first run actually ran, i.e. node creation did not raise). -/
theorem c2_amended_idempotence
    (pub1 pub2 : FeedEntry → Bool) (now1 now2 : Int)
    (cr1 cr2 : CreateNodeResult) (k : String) (info : FeedInfo)
    (entries : List FeedEntry) (c0 : Cache) (T : Int) (e : FeedEntry)
    (hcr1 : cr1 ≠ CreateNodeResult.raised)
    (hT : info.updated = some T) (he : e.updated ≤ T)
    (hmarked : is_entry_published
        (processFeed true pub1 now1 k (some (info, entries)) cr1 c0).1
        k e = true) :
    e ∉ (processFeed true pub2 now2 k (some (info, entries)) cr2
          (processFeed true pub1 now1 k (some (info, entries)) cr1 c0).1).2
    := by
  set c1 := (processFeed true pub1 now1 k (some (info, entries)) cr1 c0).1
    with hc1
  have hlast : get_last_updated c1 k = some T := by
    rw [hc1, processFeed_cache pub1 now1 k info entries cr1 c0 hcr1, hT]
    exact get_last_updated_set_self _ k T
  cases cr2 with
  | raised => simp [processFeed]
  | ok =>
    rw [processFeed_calls pub2 now2 k info entries .ok c1 (by simp), hlast]
    exact processEntries_not_called pub2 now2 k T e he entries.reverse c1
      hmarked
  | failed =>
    rw [processFeed_calls pub2 now2 k info entries .failed c1 (by simp),
      hlast]
    exact processEntries_not_called pub2 now2 k T e he entries.reverse c1
      hmarked

/-- C2 amended witness: feed declares `updatedAt = 10`, entry has
`updatedAt = 5`; after a first run that marks it published, the second run
makes no publish call for it. -/
theorem c2_amended_idempotence_witness :
    ⟨"e1", "t", 5, none, none⟩ ∉
      (processFeed true (fun _ => true) 1 "f"
        (some (⟨"f", none, none, some 10⟩, [⟨"e1", "t", 5, none, none⟩]))
        CreateNodeResult.ok
        (processFeed true (fun _ => true) 0 "f"
          (some (⟨"f", none, none, some 10⟩, [⟨"e1", "t", 5, none, none⟩]))
          CreateNodeResult.ok []).1).2 :=
  c2_amended_idempotence (fun _ => true) (fun _ => true) 0 1
    CreateNodeResult.ok CreateNodeResult.ok "f" ⟨"f", none, none, some 10⟩
    [⟨"e1", "t", 5, none, none⟩] [] 10 ⟨"e1", "t", 5, none, none⟩
    (by decide) rfl (by decide) (by decide)

/-- C3 counterexample: a cycle in which node creation fails (the
classified failure: `create_node` returns `False`) is NOT aborted — the
entry is still published and the feed's cache records change in that
cycle, because line 171 of scheduler.py discards `create_node`'s result. -/
theorem c3_counterexample :
    (processFeed true (fun _ => true) 0 "f"
        (some (⟨"f", none, none, some 10⟩, [⟨"e1", "t", 5, none, none⟩]))
        CreateNodeResult.failed []).2
      = [⟨"e1", "t", 5, none, none⟩]
    ∧ (processFeed true (fun _ => true) 0 "f"
        (some (⟨"f", none, none, some 10⟩, [⟨"e1", "t", 5, none, none⟩]))
        CreateNodeResult.failed []).1
      ≠ ([] : Cache) := by
  decide

/-- C3 amended: the boolean result of `create_node` is ignored, so a
classified node-creation failure leaves the cycle exactly identical to the
success case; only an exception escaping `create_node` aborts the cycle
for that feed, with no publish call and an unchanged cache. -/
theorem c3_amended_create_node_ignored
    (connected : Bool) (pub : FeedEntry → Bool) (now : Int) (k : String)
    (pr : Option (FeedInfo × List FeedEntry)) (c : Cache) :
    processFeed connected pub now k pr CreateNodeResult.failed c
        = processFeed connected pub now k pr CreateNodeResult.ok c
    ∧ (∀ (info : FeedInfo) (entries : List FeedEntry),
        processFeed true pub now k (some (info, entries))
          CreateNodeResult.raised c = (c, [])) := by
  constructor
  · cases connected with
    | false => rfl
    | true =>
      cases pr with
      | none => rfl
      | some p => rfl
  · intro info entries
    rfl

/-- C4: with no prior cache state, every fetched entry is published, and
the publish calls occur in exact reverse of the fetched order
(`for entry in reversed(entries)`). -/
theorem c4_publish_order (pub : FeedEntry → Bool) (now : Int) (k : String)
    (info : FeedInfo) (entries : List FeedEntry) (cr : CreateNodeResult)
    (hcr : cr ≠ CreateNodeResult.raised) :
    (processFeed true pub now k (some (info, entries)) cr cacheClear).2
      = entries.reverse := by
  rw [processFeed_calls pub now k info entries cr cacheClear hcr]
  exact processEntries_none_calls pub now k entries.reverse cacheClear

/-- C4 witness: a feed returning `[E3, E2, E1]` with an empty cache
publishes in the order `E1, E2, E3`. -/
theorem c4_publish_order_witness :
    (processFeed true (fun _ => true) 0 "feed"
        (some (⟨"", none, none, none⟩,
          [⟨"E3", "", 3, none, none⟩, ⟨"E2", "", 2, none, none⟩,
            ⟨"E1", "", 1, none, none⟩]))
        CreateNodeResult.ok cacheClear).2
      = [⟨"E1", "", 1, none, none⟩, ⟨"E2", "", 2, none, none⟩,
          ⟨"E3", "", 3, none, none⟩] := by
  have h := c4_publish_order (fun _ => true) 0 "feed" ⟨"", none, none, none⟩
    [⟨"E3", "", 3, none, none⟩, ⟨"E2", "", 2, none, none⟩,
      ⟨"E1", "", 1, none, none⟩] CreateNodeResult.ok (by decide)
  exact h.trans (by decide)

/-- C5: if every publish attempt carrying an entry's id fails in a cycle,
the cycle leaves the published set unchanged with respect to that entry —
its composite key is not added — and the entry therefore satisfies the
publish condition again against the post-cycle cache (at-least-once
delivery). -/
theorem c5_failed_publish_retried (pub : FeedEntry → Bool) (now : Int)
    (k : String) (info : FeedInfo) (entries : List FeedEntry)
    (cr : CreateNodeResult) (c : Cache) (e : FeedEntry)
    (hpre : is_entry_published c k e = false)
    (hfail : ∀ e', e'.id = e.id → pub e' = false) :
    is_entry_published
        (processFeed true pub now k (some (info, entries)) cr c).1 k e
      = false
    ∧ shouldPublish
        (processFeed true pub now k (some (info, entries)) cr c).1
        (get_last_updated
          (processFeed true pub now k (some (info, entries)) cr c).1 k)
        k e = true := by
  have hnot : is_entry_published
      (processFeed true pub now k (some (info, entries)) cr c).1 k e
        = false := by
    cases cr with
    | raised => exact hpre
    | ok =>
      rw [processFeed_cache pub now k info entries .ok c (by simp)]
      cases hu : info.updated with
      | none =>
        exact processEntries_not_marked pub now k _ e hfail
          entries.reverse c hpre
      | some t =>
        rw [is_entry_published_set_last]
        exact processEntries_not_marked pub now k _ e hfail
          entries.reverse c hpre
    | failed =>
      rw [processFeed_cache pub now k info entries .failed c (by simp)]
      cases hu : info.updated with
      | none =>
        exact processEntries_not_marked pub now k _ e hfail
          entries.reverse c hpre
      | some t =>
        rw [is_entry_published_set_last]
        exact processEntries_not_marked pub now k _ e hfail
          entries.reverse c hpre
  exact ⟨hnot, shouldPublish_of_not_published _ _ k e hnot⟩

/-- C5 witness: a cycle whose publish calls all fail leaves the concrete
entry unmarked and still publish-eligible. -/
theorem c5_failed_publish_retried_witness :
    is_entry_published
        (processFeed true (fun _ => false) 0 "f"
          (some (⟨"f", none, none, some 10⟩, [⟨"e1", "t", 5, none, none⟩]))
          CreateNodeResult.ok []).1 "f" ⟨"e1", "t", 5, none, none⟩
      = false
    ∧ shouldPublish
        (processFeed true (fun _ => false) 0 "f"
          (some (⟨"f", none, none, some 10⟩, [⟨"e1", "t", 5, none, none⟩]))
          CreateNodeResult.ok []).1
        (get_last_updated
          (processFeed true (fun _ => false) 0 "f"
            (some (⟨"f", none, none, some 10⟩, [⟨"e1", "t", 5, none, none⟩]))
            CreateNodeResult.ok []).1 "f")
        "f" ⟨"e1", "t", 5, none, none⟩ = true :=
  c5_failed_publish_retried (fun _ => false) 0 "f"
    ⟨"f", none, none, some 10⟩ [⟨"e1", "t", 5, none, none⟩]
    CreateNodeResult.ok [] ⟨"e1", "t", 5, none, none⟩
    (by decide) (fun _ _ => rfl)

/-- A fetch whose every attempt raises the same retried exception class
walks the whole loop and exhausts it. -/
theorem fetchLoop_const_retried (exc : FetchExcClass)
    (h : isRetriedExc exc = true) :
    ∀ (n i : Nat),
      fetchLoop (fun _ => AttemptOutcome.raise exc) i n
        = FetchResult.exhausted (i + n - 1) := by
  intro n
  induction n with
  | zero => intro i; rfl
  | succ n ih =>
    intro i
    show (if isRetriedExc exc = true
        then fetchLoop (fun _ => AttemptOutcome.raise exc) (i + 1) n
        else FetchResult.immediate i) = _
    rw [if_pos h, ih (i + 1)]
    congr 1
    omega

/-- C6 counterexample: with the default `maxRetries = 2` and a source that
raises `urllib.error.HTTPError` on every attempt, the parse makes 2
attempts and fails via the retries-exhausted path — an HTTP error is
retried, not surfaced immediately after a single attempt as the claim
states. -/
theorem c6_counterexample :
    fetchResult (fun _ => AttemptOutcome.raise FetchExcClass.httpError) 2
      = FetchResult.exhausted 2
    ∧ FetchResult.exhausted 2 ≠ FetchResult.immediate 1 := by
  decide

/-- C6 amended: timeout, connection (URLError) AND HTTP errors are all
retried up to `maxRetries` attempts; only an exception outside those three
classes is surfaced immediately after a single attempt. -/
theorem c6_amended_retry_classification :
    (∀ (att : Nat → AttemptOutcome) (m : Nat), 1 ≤ m →
        att 1 = AttemptOutcome.raise FetchExcClass.otherExc →
        fetchResult att m = FetchResult.immediate 1)
    ∧ (∀ (m : Nat) (exc : FetchExcClass), isRetriedExc exc = true →
        fetchResult (fun _ => AttemptOutcome.raise exc) m
          = FetchResult.exhausted m)
    ∧ isRetriedExc FetchExcClass.httpError = true
    ∧ isRetriedExc FetchExcClass.otherExc = false := by
  refine ⟨?_, ?_, rfl, rfl⟩
  · intro att m hm hatt
    obtain ⟨n, rfl⟩ : ∃ n, m = n + 1 := ⟨m - 1, by omega⟩
    show fetchLoop att 1 (n + 1) = _
    unfold fetchLoop
    rw [hatt]
    simp [isRetriedExc]
  · intro m exc h
    rw [fetchResult, fetchLoop_const_retried exc h m 1]
    congr 1
    omega

/-- C6 amended witness: an unclassified exception surfaces after one
attempt; a connection error exhausts both attempts. -/
theorem c6_amended_retry_classification_witness :
    fetchResult (fun _ => AttemptOutcome.raise FetchExcClass.otherExc) 2
      = FetchResult.immediate 1
    ∧ fetchResult (fun _ => AttemptOutcome.raise FetchExcClass.urlError) 2
      = FetchResult.exhausted 2 :=
  ⟨c6_amended_retry_classification.1 _ 2 (by decide) rfl,
    c6_amended_retry_classification.2.1 2 FetchExcClass.urlError rfl⟩

/-- Projection of `parseEntry` onto its id computation. -/
theorem parseEntry_id (sh sa : String → String) (now : Int) (r : RawEntry) :
    (parseEntry sh sa now r).id
      = pyOr (r.idAttr.getD "") (r.linkAttr.getD "") := rfl

/-- Projection of `parseEntry` onto its description computation. -/
theorem parseEntry_description (sh sa : String → String) (now : Int)
    (r : RawEntry) :
    (parseEntry sh sa now r).description = (selectContent sh sa r).2 := rfl

/-- Projection of `parseEntry` onto its content computation (the dialect
selection followed by the universal summary fallback of line 218). -/
theorem parseEntry_content (sh sa : String → String) (now : Int)
    (r : RawEntry) :
    (parseEntry sh sa now r).content
      = if contentFalsy (selectContent sh sa r).1 && pyTruthy r.summary
        then some (sh (r.summary.getD ""))
        else (selectContent sh sa r).1 := rfl

/-- C7 counterexample: an input entry that omits both its id and its link
normalizes to an entry whose id is the EMPTY string — the claimed
invariant "id is non-empty for every input entry" fails. -/
theorem c7_counterexample :
    (parseEntry (fun s => s) (fun s => s) 0
        ⟨none, none, none, none, none, none, none, none, none⟩).id
      = "" := rfl

/-- C7 amended: the normalized id equals the declared id when that is
non-empty, else the entry's link (empty when absent); it is non-empty
whenever the entry declares a non-empty id or a non-empty link — but an
entry omitting both gets the empty id. -/
theorem c7_amended_entry_id (sh sa : String → String) (now : Int)
    (r : RawEntry) :
    (r.idAttr.getD "" ≠ "" →
        (parseEntry sh sa now r).id = r.idAttr.getD "")
    ∧ (r.idAttr.getD "" = "" →
        (parseEntry sh sa now r).id = r.linkAttr.getD "")
    ∧ ((r.idAttr.getD "" ≠ "" ∨ r.linkAttr.getD "" ≠ "") →
        (parseEntry sh sa now r).id ≠ "") := by
  refine ⟨?_, ?_, ?_⟩
  · intro h
    rw [parseEntry_id, pyOr, if_neg h]
  · intro h
    rw [parseEntry_id, pyOr, if_pos h]
  · intro h
    rw [parseEntry_id, pyOr]
    by_cases hc : r.idAttr.getD "" = ""
    · rw [if_pos hc]
      rcases h with h | h
      · exact absurd hc h
      · exact h
    · rw [if_neg hc]
      exact hc

/-- C7 amended witness: declared id wins when present; link is the
fallback. -/
theorem c7_amended_entry_id_witness :
    (parseEntry (fun s => s) (fun s => s) 0
        ⟨some "tag:1", some "http://x", none, none, none, none, none,
          none, none⟩).id = "tag:1"
    ∧ (parseEntry (fun s => s) (fun s => s) 0
        ⟨none, some "http://x", none, none, none, none, none, none,
          none⟩).id = "http://x" :=
  ⟨(c7_amended_entry_id (fun s => s) (fun s => s) 0 _).1 (by decide),
    (c7_amended_entry_id (fun s => s) (fun s => s) 0 _).2.1 rfl⟩

/-- C8 counterexample: with the pydantic-valid configuration
`refresh_time = 1` minute and two feeds, the per-feed spacing is 1/2
minute — strictly below the claimed 1-minute floor, which the code does
not implement (the literal 1 is used only when the feed list is empty). -/
theorem c8_counterexample :
    validRefreshTime 1
    ∧ refreshIntervalMinutes 1 2 = 1 / 2
    ∧ refreshIntervalMinutes 1 2 < 1 := by
  refine ⟨le_refl 1, ?_, ?_⟩ <;> norm_num [refreshIntervalMinutes]

/-- C8 amended: for a non-empty feed set, the per-feed spacing equals the
configured total refresh interval in minutes divided by the feed count
(slept as that many minutes times 60 seconds), with no lower bound. -/
theorem c8_amended_spacing (rt fc : Nat) (hfc : fc ≠ 0) :
    refreshIntervalMinutes rt fc = (rt : ℚ) / (fc : ℚ)
    ∧ sleepSeconds rt fc = (rt : ℚ) / (fc : ℚ) * 60 := by
  rw [sleepSeconds, refreshIntervalMinutes, if_neg hfc]
  exact ⟨rfl, rfl⟩

/-- C8 amended witness: 60 minutes across 3 feeds gives 20-minute spacing
and a 1200-second sleep. -/
theorem c8_amended_spacing_witness :
    refreshIntervalMinutes 60 3 = 20 ∧ sleepSeconds 60 3 = 1200 := by
  have h := c8_amended_spacing 60 3 (by decide)
  exact ⟨h.1.trans (by norm_num), h.2.trans (by norm_num)⟩

/-- C9: for an RSS 2.0/1.0 entry, with a sanitizer that preserves
non-emptiness, normalized content follows the priority content:encoded →
content → summary → description, first non-empty wins (the first three
populate `content` through the HTML sanitizer; a bare description
populates only the `description` field); in particular content:encoded
beats a populated description. -/
theorem c9_rss_content_priority (sh sa : String → String) (now : Int)
    (r : RawEntry)
    (hrss : isRss (r.version.getD "") = true)
    (hsan : ∀ s, s ≠ "" → sh s ≠ "") :
    (pyTruthy r.contentEncoded = true →
        (parseEntry sh sa now r).content
            = some (sh (r.contentEncoded.getD ""))
        ∧ (parseEntry sh sa now r).description = none)
    ∧ (pyTruthy r.contentEncoded = false →
        truthyList r.contentList = true →
        (r.contentList.getD []).headD "" ≠ "" →
        (parseEntry sh sa now r).content
            = some (sh ((r.contentList.getD []).headD ""))
        ∧ (parseEntry sh sa now r).description = none)
    ∧ (pyTruthy r.contentEncoded = false →
        truthyList r.contentList = false →
        pyTruthy r.summary = true →
        (parseEntry sh sa now r).content = some (sh (r.summary.getD ""))
        ∧ (parseEntry sh sa now r).description = none)
    ∧ (pyTruthy r.contentEncoded = false →
        truthyList r.contentList = false →
        pyTruthy r.summary = false → pyTruthy r.description = true →
        (parseEntry sh sa now r).content = none
        ∧ (parseEntry sh sa now r).description
            = some (r.description.getD "")) := by
  refine ⟨?_, ?_, ?_, ?_⟩
  · intro hce
    rcases hco : r.contentEncoded with _ | s
    · rw [hco] at hce
      exact absurd hce (by simp [pyTruthy])
    · have hs : s ≠ "" := by
        rw [hco] at hce
        simpa [pyTruthy] using hce
      have hsel : selectContent sh sa r = (some (sh s), none) := by
        simp [selectContent, hrss, hco, pyTruthy, hs]
      refine ⟨?_, by rw [parseEntry_description, hsel]⟩
      rw [parseEntry_content, hsel]
      have hcf : contentFalsy (some (sh s)) = false := by
        simp [contentFalsy, hsan s hs]
      rw [hcf]
      simp [hco]
  · intro hce hcl hx
    rcases hco : r.contentList with _ | ⟨_ | ⟨x, xs⟩⟩
    · rw [hco] at hcl
      exact absurd hcl (by simp [truthyList])
    · rw [hco] at hcl
      exact absurd hcl (by simp [truthyList])
    · rw [hco] at hx
      simp only [Option.getD_some, List.headD_cons] at hx
      have hsel : selectContent sh sa r = (some (sh x), none) := by
        simp [selectContent, hrss, hce, hco, truthyList]
      refine ⟨?_, by rw [parseEntry_description, hsel]⟩
      rw [parseEntry_content, hsel]
      have hcf : contentFalsy (some (sh x)) = false := by
        simp [contentFalsy, hsan x hx]
      rw [hcf]
      simp [hco]
  · intro hce hcl hsum
    have hsel : selectContent sh sa r
        = (some (sh (r.summary.getD "")), none) := by
      simp [selectContent, hrss, hce, hcl, hsum]
    refine ⟨?_, by rw [parseEntry_description, hsel]⟩
    rw [parseEntry_content, hsel]
    split <;> rfl
  · intro hce hcl hsum hdesc
    have hsel : selectContent sh sa r
        = (none, some (r.description.getD "")) := by
      simp [selectContent, hrss, hce, hcl, hsum, hdesc]
    refine ⟨?_, by rw [parseEntry_description, hsel]⟩
    rw [parseEntry_content, hsel]
    simp [contentFalsy, hsum]

/-- C9 witness: an RSS entry with both content:encoded and description
populated normalizes its content from content:encoded, not from the
description. -/
theorem c9_rss_content_priority_witness :
    (parseEntry (fun s => s) (fun s => s) 0
        ⟨none, none, none, none, some "rss20", some "FULL", none, none,
          some "teaser"⟩).content = some "FULL"
    ∧ (parseEntry (fun s => s) (fun s => s) 0
        ⟨none, none, none, none, some "rss20", some "FULL", none, none,
          some "teaser"⟩).description = none :=
  (c9_rss_content_priority (fun s => s) (fun s => s) 0
      ⟨none, none, none, none, some "rss20", some "FULL", none, none,
        some "teaser"⟩
      (by decide) (fun _ h => h)).1 (by decide)

/-- C10: the Pubsub item-id sanitization (replace each of ':', ',', '/'
with '-') is not injective: the distinct entry ids "a:b" and "a-b" map to
the same item id; the spec's own example also checks out. -/
theorem c10_item_id_sanitization_not_injective :
    sanitizeItemId "a:b" = sanitizeItemId "a-b"
    ∧ "a:b" ≠ "a-b"
    ∧ sanitizeItemId "tag:example.com,2024:post/1"
        = "tag-example.com-2024-post-1" := by
  decide

end AtomToPubsub
